import Mathlib

/-!
Verification of the natural-language specification of `jira-utils`
(`src/utils.py`, function `find_and_replace`) against a shallow embedding of
that function in Lean 4.

Modelling conventions:
* The external ticket store (the `jira` client) is abstracted: the result of
  `jira.search_issues` is a function parameter `search`, and the per-issue
  `issue.update(**changes)` call is an oracle `update : String → List (String
  × String) → Bool` returning success or failure.
* The `re` module is abstracted by `compiles : String → Bool` (does
  `re.compile` succeed) and, where the spec speaks about matching, by an
  abstract `rsearch : String → String → Bool`.
* Python's `str.replace` (line 74 of utils.py) is modelled concretely by
  `pyReplace` below, including the empty-pattern behaviour of Python
  (`"ab".replace("", "-") == "-a-b-"`).
* The module `utils.py` never imports `sys`, yet every error branch calls
  `sys.stderr.write` (lines 24, 27, 43, 58 and 86); in CPython each of these
  calls raises `NameError` before anything else in its statement executes.
  Likewise line 46 calls `getattr(issue_fields, ...)` where `issue_fields`
  is the *list* produced by `dir(issue.fields)` (line 39), so for ordinary
  field names it raises `AttributeError`.  These raised exceptions are
  modelled by `PyErr`; a raised exception aborts the run with the events
  and counters accumulated so far.
* `dir(issue.fields)` is modelled as the list of the issue's field names.
  Built-in attribute names that every Python object also reports (dunders,
  list methods) are outside the model's universe of field names.
-/

namespace JiraUtils

/-- Is `sub` a (character-wise) prefix of `cs`? Decision procedure used by
the model of Python substring search and of `str.replace`. -/
def isPre : List Char → List Char → Bool
  | [], _ => true
  | _ :: _, [] => false
  | o :: os, c :: cs => if o = c then isPre os cs else false

/-- Python substring containment (`sub in s` on strings), on character
lists: some suffix of `cs` has `sub` as a prefix.  The empty list is
contained in everything, as in Python. -/
def containsSub (cs sub : List Char) : Bool :=
  match cs with
  | [] => isPre sub []
  | c :: rest => isPre sub (c :: rest) || containsSub rest sub

/-- Behaviour of Python `s.replace(old, new)` when `old` is the empty
string: `new` is inserted before every character and at the end
(`"ab".replace("", "-") == "-a-b-"`). -/
def interleaveNew (new : List Char) : List Char → List Char
  | [] => new
  | c :: rest => new ++ c :: interleaveNew new rest

/-- Core of Python `s.replace(old, new)` for non-empty `old`: scan left to
right, replacing each non-overlapping occurrence of `old` by `new`.  `fuel`
is an upper bound on the number of characters still to be scanned; callers
pass `cs.length`, which is always sufficient because every step consumes at
least one character. -/
def pyReplaceCore (old new : List Char) : Nat → List Char → List Char
  | _, [] => []
  | 0, cs => cs
  | fuel + 1, c :: rest =>
    if isPre old (c :: rest) then
      new ++ pyReplaceCore old new fuel (rest.drop (old.length - 1))
    else
      c :: pyReplaceCore old new fuel rest

/-- Python `s.replace(old, new)` on character lists. -/
def pyReplaceL (cs old new : List Char) : List Char :=
  match old with
  | [] => interleaveNew new cs
  | _ :: _ => pyReplaceCore old new cs.length cs

/-- Python `s.replace(old, new)` on strings; this is the model of
`old_value.replace(replacement['old'], replacement['new'])` at line 74 of
utils.py.  Replacement is literal: `old` is a plain substring, not a
pattern. -/
def pyReplace (s old new : String) : String :=
  String.mk (pyReplaceL s.data old.data new.data)

/-- Python substring containment `sub in s` on strings. -/
def pyContains (s sub : String) : Bool :=
  containsSub s.data sub.data

/-- Value of an issue field as seen by `find_and_replace`: a text value or
anything else (line 71 of utils.py only distinguishes `isinstance(old_value,
str)` from the rest). -/
inductive FieldValue where
  | str (s : String)
  | other
  deriving DecidableEq

/-- An issue fetched from the ticket store: a key and a mapping from field
name to value (the snapshot behind `issue.fields`). -/
structure Issue where
  key : String
  fields : List (String × FieldValue)
  deriving DecidableEq

/-- One entry of the `replacements` argument: a dict with keys `field_name`,
`old` and `new` (utils.py docstring, lines 11 and 63-76). -/
structure Replacement where
  field_name : String
  old : String
  new : String
  deriving DecidableEq

/-- One entry of the `additional_tests` argument: a dict with a `field_name`
and, when the key is present, a `regex` pattern (`regex := none` models a
dict missing the `regex` key, line 20 of utils.py). -/
structure VTest where
  field_name : String
  regex : Option String
  deriving DecidableEq

/-- Exceptions that utils.py actually raises.  `nameErrorSys` is the
`NameError` raised by any `sys.stderr.write(...)` statement because the
module never imports `sys`; `attributeError a` is the `AttributeError`
raised at line 46 by `getattr(issue_fields, a)`, where `issue_fields` is the
list `dir(issue.fields)` rather than the fields object. -/
inductive PyErr where
  | nameErrorSys
  | attributeError (attr : String)
  deriving DecidableEq

/-- Observable actions of a run, in order: the stdout prints that succeed
(lines 36, 38, 72, 78, 83, 90 of utils.py) and the remote
`issue.update(**changes)` call (line 81). -/
inductive Event where
  | startMsg (n : Nat)
  | evaluatingMsg (key : String)
  | warnNonStr (key field : String)
  | dryRunMsg (key : String) (changes : List (String × String))
  | updateCall (key : String) (changes : List (String × String))
  | updatedMsg (key : String) (fields : List String)
  | summaryMsg (selected failedTests changed unchanged failed : Nat)
  deriving DecidableEq

/-- The five tallies of lines 31-35 of utils.py. -/
structure Counters where
  selected_issues : Nat
  issues_failed_tests : Nat
  changed_issues : Nat
  unchanged_issues : Nat
  failed_issues : Nat
  deriving DecidableEq

/-- Outcome of processing a single issue (one iteration of the loop at
line 37): the events it emitted, how much it added to each tally, and the
exception it raised, if any. -/
structure IssueResult where
  events : List Event
  failedTestsDelta : Nat
  changedDelta : Nat
  unchangedDelta : Nat
  failedDelta : Nat
  err : Option PyErr
  deriving DecidableEq

/-- Outcome of a whole `find_and_replace` call.  `ret` is the value the
Python function returns to its caller: utils.py has no `return` with a
value on any path (lines 25 and 28 return `None`, and the function falls
off the end), so `ret` is always `none`. -/
structure RunResult where
  searchInvoked : Bool
  events : List Event
  counters : Counters
  err : Option PyErr
  ret : Option Counters
  deriving DecidableEq

/-- `dir(issue.fields)` at line 39, restricted to the issue's field names
(built-in object attributes are outside the model). -/
def fieldNames (issue : Issue) : List String :=
  issue.fields.map (fun p => p.1)

/-- `getattr(issue.fields, name)`: the first binding of `name` in the
issue's field mapping. -/
def getField (issue : Issue) (name : String) : Option FieldValue :=
  (issue.fields.find? (fun p => p.1 == name)).map (fun p => p.2)

/-- Lines 19-28 of utils.py, the pre-compilation loop over
`additional_tests`.  A test without a `regex` key reaches line 27 and a
test whose pattern fails `re.compile` reaches line 24; both lines call
`sys.stderr.write`, which raises `NameError` (before the `return` on the
next line executes), so in either case the function terminates here. -/
def preCompile (compiles : String → Bool) : List VTest → Except PyErr Unit
  | [] => Except.ok ()
  | t :: rest =>
    match t.regex with
    | some pat =>
      if compiles pat then preCompile compiles rest
      else Except.error PyErr.nameErrorSys
    | none => Except.error PyErr.nameErrorSys

/-- Lines 41-49 of utils.py, the per-issue loop over `additional_tests`.
The returned Bool is `tests_passed`.  For a non-empty test list the first
iteration always raises: if the test's field is not among the issue's
fields, line 43 (`sys.stderr.write`) raises `NameError` before
`tests_passed = False` at line 44 can run; if the field is present,
line 46 evaluates `getattr(issue_fields, test['field_name'])` on the
`dir()` *list*, raising `AttributeError` for any ordinary field name, so
the compiled pattern is never matched against the field value.
Consequently `.ok` is only ever returned for an empty test list, with
`tests_passed = true`. -/
def testsLoop (additional_tests : List VTest) (issue_fields : List String) :
    Except PyErr Bool :=
  match additional_tests with
  | [] => Except.ok true
  | t :: _ =>
    if issue_fields.contains t.field_name then
      Except.error (PyErr.attributeError t.field_name)
    else
      Except.error PyErr.nameErrorSys

/-- Python dict assignment `changes[field_name] = new_value` (line 76): an
existing key keeps its position and gets the new value, a fresh key is
appended. -/
def dictInsert (d : List (String × String)) (k v : String) :
    List (String × String) :=
  if d.any (fun p => p.1 == k) then
    d.map (fun p => if p.1 == k then (k, v) else p)
  else
    d ++ [(k, v)]

/-- One iteration of the replacement loop, lines 63-76 of utils.py, acting
on the pair (changes dict so far, warnings printed so far).  Note line 70
reads `old_value` from `issue.fields` each time, never from the staged
changes.  The `none` branch of `getField` is unreachable here because
line 56 already checked that every replacement field is present; it is
folded into the non-string warning branch. -/
def replacementStep (issue : Issue) (acc : List (String × String) × List Event)
    (r : Replacement) : List (String × String) × List Event :=
  match getField issue r.field_name with
  | some (FieldValue.str old_value) =>
    let new_value := pyReplace old_value r.old r.new
    if old_value ≠ new_value then (dictInsert acc.1 r.field_name new_value, acc.2)
    else acc
  | _ => (acc.1, acc.2 ++ [Event.warnNonStr issue.key r.field_name])

/-- The whole replacement loop of lines 62-76: the staged changes dict and
the non-string warnings, in order. -/
def replacementsPass (issue : Issue) (replacements : List Replacement) :
    List (String × String) × List Event :=
  replacements.foldl (replacementStep issue) ([], [])

/-- One iteration of the issue loop, lines 37-89 of utils.py.  `update` is
the oracle for the remote `issue.update(**changes)` call at line 81.
Branches that raise record the exception in `err`:
* a non-empty `additional_tests` raises inside `testsLoop` (see there);
* a replacement field missing from the issue reaches line 58, whose
  `sys.stderr.write` raises `NameError` before `failed_issues += 1` at
  line 60 can run;
* a failing update call is caught at line 85, but line 86 again calls
  `sys.stderr.write`, raising `NameError` inside the handler before
  `failed_issues += 1` at line 87 can run.
The `tests_passed = false` branch (lines 51-53) is kept for fidelity even
though `testsLoop` can never produce it. -/
def processIssue (additional_tests : List VTest) (replacements : List Replacement)
    (dry_run : Bool) (update : String → List (String × String) → Bool)
    (issue : Issue) : IssueResult :=
  let issue_fields := fieldNames issue
  match testsLoop additional_tests issue_fields with
  | Except.error e =>
    { events := [Event.evaluatingMsg issue.key], failedTestsDelta := 0,
      changedDelta := 0, unchangedDelta := 0, failedDelta := 0, err := some e }
  | Except.ok tests_passed =>
    if tests_passed = false then
      -- lines 51-53: `issues_failed_tests += 1; continue`
      { events := [Event.evaluatingMsg issue.key], failedTestsDelta := 1,
        changedDelta := 0, unchangedDelta := 0, failedDelta := 0, err := none }
    else if replacements.all (fun r => issue_fields.contains r.field_name) then
      let cw := replacementsPass issue replacements
      if dry_run ∧ cw.1 ≠ [] then
        -- lines 77-78: dry run, print the staged changes, no update, no tally
        { events := Event.evaluatingMsg issue.key :: cw.2 ++
            [Event.dryRunMsg issue.key cw.1],
          failedTestsDelta := 0, changedDelta := 0, unchangedDelta := 0,
          failedDelta := 0, err := none }
      else if cw.1 ≠ [] then
        if update issue.key cw.1 then
          -- lines 81-83: successful update
          { events := Event.evaluatingMsg issue.key :: cw.2 ++
              [Event.updateCall issue.key cw.1,
               Event.updatedMsg issue.key (cw.1.map (fun p => p.1))],
            failedTestsDelta := 0, changedDelta := 1, unchangedDelta := 0,
            failedDelta := 0, err := none }
        else
          -- lines 85-87: the handler itself raises NameError at line 86
          { events := Event.evaluatingMsg issue.key :: cw.2 ++
              [Event.updateCall issue.key cw.1],
            failedTestsDelta := 0, changedDelta := 0, unchangedDelta := 0,
            failedDelta := 0, err := some PyErr.nameErrorSys }
      else
        -- lines 88-89: nothing to change
        { events := Event.evaluatingMsg issue.key :: cw.2,
          failedTestsDelta := 0, changedDelta := 0, unchangedDelta := 1,
          failedDelta := 0, err := none }
    else
      -- lines 56-61: missing replacement field; line 58 raises NameError
      { events := [Event.evaluatingMsg issue.key], failedTestsDelta := 0,
        changedDelta := 0, unchangedDelta := 0, failedDelta := 0,
        err := some PyErr.nameErrorSys }

/-- Accumulate one issue's tally deltas into the run counters. -/
def addCounters (c : Counters) (r : IssueResult) : Counters :=
  { selected_issues := c.selected_issues,
    issues_failed_tests := c.issues_failed_tests + r.failedTestsDelta,
    changed_issues := c.changed_issues + r.changedDelta,
    unchanged_issues := c.unchanged_issues + r.unchangedDelta,
    failed_issues := c.failed_issues + r.failedDelta }

/-- Fold step for the issue loop.  Once an exception has been raised the
remaining issues are not processed (the exception propagates out of the
`for` loop). -/
def runStep (additional_tests : List VTest) (replacements : List Replacement)
    (dry_run : Bool) (update : String → List (String × String) → Bool)
    (acc : RunResult) (issue : Issue) : RunResult :=
  match acc.err with
  | some _ => acc
  | none =>
    let r := processIssue additional_tests replacements dry_run update issue
    { searchInvoked := acc.searchInvoked, events := acc.events ++ r.events,
      counters := addCounters acc.counters r, err := r.err, ret := acc.ret }

/-- Initial counters: `selected_issues = len(issues)` (line 31), the other
four tallies start at zero (lines 32-35). -/
def initCounters (n : Nat) : Counters :=
  { selected_issues := n, issues_failed_tests := 0, changed_issues := 0,
    unchanged_issues := 0, failed_issues := 0 }

/-- Shallow embedding of `find_and_replace` (utils.py lines 7-90).  The
external collaborators are parameters: `compiles` models `re.compile`
success, `search` models `jira.search_issues(issue_jql, maxResults=0)`, and
`update` models `issue.update(**changes)`.  The `server` / `credentials` /
`jira` connection arguments play no further role and are omitted.  If any
exception is raised, the run terminates with the events and counters
accumulated so far (`err` records the exception); otherwise line 90 prints
the summary.  The function always returns `None` (`ret := none`). -/
def find_and_replace (issue_jql : String) (replacements : List Replacement)
    (additional_tests : List VTest) (dry_run : Bool)
    (compiles : String → Bool) (search : String → List Issue)
    (update : String → List (String × String) → Bool) : RunResult :=
  match preCompile compiles additional_tests with
  | Except.error e =>
    { searchInvoked := false, events := [], counters := initCounters 0,
      err := some e, ret := none }
  | Except.ok _ =>
    let issues := search issue_jql
    let st0 : RunResult :=
      { searchInvoked := true, events := [Event.startMsg issues.length],
        counters := initCounters issues.length, err := none, ret := none }
    let st := issues.foldl (runStep additional_tests replacements dry_run update) st0
    match st.err with
    | none =>
      { searchInvoked := st.searchInvoked,
        events := st.events ++
          [Event.summaryMsg st.counters.selected_issues
            st.counters.issues_failed_tests st.counters.changed_issues
            st.counters.unchanged_issues st.counters.failed_issues],
        counters := st.counters, err := none, ret := none }
    | some _ => st

/-- Recognizer for `updateCall` events. -/
def isUpdateCallEv (e : Event) : Bool :=
  match e with
  | Event.updateCall _ _ => true
  | _ => false

/-- Recognizer for `evaluatingMsg` events (one per issue processed). -/
def isEvaluatingEv (e : Event) : Bool :=
  match e with
  | Event.evaluatingMsg _ => true
  | _ => false

/-- Recognizer for `summaryMsg` events. -/
def isSummaryEv (e : Event) : Bool :=
  match e with
  | Event.summaryMsg _ _ _ _ _ => true
  | _ => false

/-- Recognizer for `dryRunMsg` events. -/
def isDryRunEv (e : Event) : Bool :=
  match e with
  | Event.dryRunMsg _ _ => true
  | _ => false

/-- Recognizer for `updateCall` events whose issue key is `k`. -/
def isUpdateCallKey (k : String) (e : Event) : Bool :=
  match e with
  | Event.updateCall k2 _ => k2 == k
  | _ => false

/-- Number of events satisfying `p`. -/
def countEv (p : Event → Bool) (evs : List Event) : Nat :=
  (evs.filter p).length

/-- Number of update calls carrying issue key `k`. -/
def ucKeyCount (k : String) (evs : List Event) : Nat :=
  countEv (isUpdateCallKey k) evs

/-- Number of fetched issues whose key is `k`. -/
def keyCount (k : String) (issues : List Issue) : Nat :=
  (issues.filter (fun i => i.key == k)).length

/-- Modelled from the spec: a validation rule passes on an issue when its
pattern, run by the matcher `rsearch`, finds a match in the current text
value of the rule's field on that issue (spec section 4.3, steps 1-2).
The code itself never reaches this evaluation (see `testsLoop`), so the
spec's wording is the only available definition. -/
def specRulePasses (rsearch : String → String → Bool) (t : VTest)
    (issue : Issue) : Bool :=
  match t.regex, getField issue t.field_name with
  | some pat, some (FieldValue.str v) => rsearch pat v
  | _, _ => false

/-- A staged change `(field, value)` is honest for `issue`: the issue holds
a text value at that field and the staged value actually differs from it. -/
def staged (issue : Issue) (p : String × String) : Prop :=
  ∃ ov, getField issue p.1 = some (FieldValue.str ov) ∧ p.2 ≠ ov

/-- Models lines 70-76 of utils.py for the replacement rules that target a
single field whose fetched value is `v`: every rule reads the original
value `v` (line 70 re-reads `issue.fields`, never the staged changes), and
the staged result is the value of the last rule whose literal replacement
actually differs from `v`, or `v` itself if none differs. -/
def applyRuleSet (replacements : List Replacement) (v : String) : String :=
  replacements.foldl
    (fun acc r =>
      let new_value := pyReplace v r.old r.new
      if v ≠ new_value then new_value else acc) v

/-! Concrete scenarios used to settle individual claims.  Each `Run` below
is a full evaluation of the embedded `find_and_replace` at explicit inputs;
the trivial oracles (`fun _ => true` for `compiles`, a constant issue list
for `search`, a constant Bool for `update`) stand for an environment in
which every pattern compiles and the store behaves as stated. -/

/-- Scenario for C2 (spec section 8): validation rule `status ~ "Open"`,
issue whose `status` field holds `"Closed"`. -/
def c2Issue : Issue :=
  { key := "T-1",
    fields := [("status", FieldValue.str "Closed"),
               ("summary", FieldValue.str "aaa")] }

/-- Run for C2: one validation rule whose field is present on the issue. -/
def c2Run : RunResult :=
  find_and_replace "project = X" [{ field_name := "summary", old := "a", new := "b" }]
    [{ field_name := "status", regex := some "Open" }] false
    (fun _ => true) (fun _ => [c2Issue]) (fun _ _ => true)

/-- Scenario for C3: an issue that lacks the `status` field referenced by
the validation rule. -/
def c3Issue : Issue :=
  { key := "T-2", fields := [("summary", FieldValue.str "aaa")] }

/-- Run for C3: one validation rule whose field is absent from the issue. -/
def c3Run : RunResult :=
  find_and_replace "project = X" [{ field_name := "summary", old := "a", new := "b" }]
    [{ field_name := "status", regex := some "Open" }] false
    (fun _ => true) (fun _ => [c3Issue]) (fun _ _ => true)

/-- Run for C4: no validation rules, two issues each needing a change, and
a store whose update call always fails. -/
def c4Run : RunResult :=
  find_and_replace "project = X" [{ field_name := "summary", old := "a", new := "b" }]
    [] false (fun _ => true)
    (fun _ => [{ key := "A-1", fields := [("summary", FieldValue.str "aaa")] },
               { key := "A-2", fields := [("summary", FieldValue.str "aaa")] }])
    (fun _ _ => false)

/-- Issue for the C5 witness run. -/
def c5Issue : Issue :=
  { key := "W-1", fields := [("summary", FieldValue.str "aaa")] }

/-- Run for the C5 witness: no validation rules, one changing replacement,
a store that accepts the update. -/
def c5Run : RunResult :=
  find_and_replace "project = X" [{ field_name := "summary", old := "a", new := "b" }]
    [] false (fun _ => true) (fun _ => [c5Issue]) (fun _ _ => true)

/-- Issue for the C6 counterexample: the validation rule field `status` is
present, and the replacement on `summary` would change its value. -/
def c6Issue : Issue :=
  { key := "D-1",
    fields := [("status", FieldValue.str "Closed"),
               ("summary", FieldValue.str "aaa")] }

/-- Run for the C6 counterexample: dry_run is true, one validation rule,
one replacement that would change a field value. -/
def c6Run : RunResult :=
  find_and_replace "project = X" [{ field_name := "summary", old := "a", new := "b" }]
    [{ field_name := "status", regex := some "Open" }] true
    (fun _ => true) (fun _ => [c6Issue]) (fun _ _ => true)

/-- Run for C9: a normally-completing run (no validation rules, one issue,
successful update), whose five tallies are 1, 0, 1, 0, 0. -/
def c9Run : RunResult :=
  find_and_replace "project = X" [{ field_name := "summary", old := "a", new := "b" }]
    [] false (fun _ => true)
    (fun _ => [{ key := "S-1", fields := [("summary", FieldValue.str "aaa")] }])
    (fun _ _ => true)

/-- Run for C10: non-dry-run, no validation rules, two fetched issues, and
a store whose update call fails. -/
def c10Run : RunResult :=
  find_and_replace "project = X" [{ field_name := "summary", old := "a", new := "b" }]
    [] false (fun _ => true)
    (fun _ => [{ key := "B-1", fields := [("summary", FieldValue.str "aaa")] },
               { key := "B-2", fields := [("summary", FieldValue.str "aaa")] }])
    (fun _ _ => false)

theorem containsSub_nil_right (cs : List Char) : containsSub cs [] = true := by
  cases cs <;> simp [containsSub, isPre]

theorem containsSub_of_isPre (cs sub : List Char) (h : isPre sub cs = true) :
    containsSub cs sub = true := by
  cases cs with
  | nil => simpa [containsSub] using h
  | cons c rest => simp [containsSub, h]

theorem isPre_append_self (xs ys : List Char) : isPre xs (xs ++ ys) = true := by
  induction xs with
  | nil => rfl
  | cons x xs ih => simp [isPre, ih]

theorem containsSub_cons_of_tail (c : Char) (rest sub : List Char)
    (h : containsSub rest sub = true) : containsSub (c :: rest) sub = true := by
  simp [containsSub, h]

theorem core_id_of_not_contains (old new : List Char) :
    ∀ (fuel : Nat) (cs : List Char), cs.length ≤ fuel →
      containsSub cs old = false → pyReplaceCore old new fuel cs = cs := by
  intro fuel
  induction fuel with
  | zero =>
    intro cs hle hnc
    cases cs with
    | nil => rfl
    | cons c rest => simp at hle
  | succ n ih =>
    intro cs hle hnc
    cases cs with
    | nil => rfl
    | cons c rest =>
      simp only [containsSub, Bool.or_eq_false_iff] at hnc
      have hlen : rest.length ≤ n := by simpa using hle
      simp [pyReplaceCore, hnc.1, ih rest hlen hnc.2]

theorem core_contains_new (old new : List Char) (hne : old ≠ []) :
    ∀ (fuel : Nat) (cs : List Char), cs.length ≤ fuel →
      containsSub cs old = true →
      containsSub (pyReplaceCore old new fuel cs) new = true := by
  intro fuel
  induction fuel with
  | zero =>
    intro cs hle hc
    cases cs with
    | nil =>
      cases old with
      | nil => exact absurd rfl hne
      | cons o os => simp [containsSub, isPre] at hc
    | cons c rest => simp at hle
  | succ n ih =>
    intro cs hle hc
    cases cs with
    | nil =>
      cases old with
      | nil => exact absurd rfl hne
      | cons o os => simp [containsSub, isPre] at hc
    | cons c rest =>
      by_cases hp : isPre old (c :: rest) = true
      · simp only [pyReplaceCore, hp]
        simp only [if_true]
        exact containsSub_of_isPre _ _ (isPre_append_self new _)
      · have hp2 : isPre old (c :: rest) = false := by
          cases h2 : isPre old (c :: rest)
          · rfl
          · exact absurd h2 hp
        simp only [containsSub, hp2, Bool.false_or] at hc
        have hlen : rest.length ≤ n := by simpa using hle
        simp only [pyReplaceCore, hp2]
        simp only [Bool.false_eq_true, if_false]
        exact containsSub_cons_of_tail _ _ _ (ih rest hlen hc)

theorem pyReplace_id_of_not_contains (s old new : String)
    (h : pyContains s old = false) : pyReplace s old new = s := by
  unfold pyContains at h
  cases s with
  | mk d =>
    cases hd : old.data with
    | nil =>
      rw [hd] at h
      rw [containsSub_nil_right] at h
      exact absurd h (by simp)
    | cons o os =>
      rw [hd] at h
      unfold pyReplace pyReplaceL
      rw [hd]
      simp only
      rw [core_id_of_not_contains (o :: os) new.data d.length d (Nat.le_refl _) h]

theorem pyReplace_contains_new (s old new : String)
    (h : pyContains s old = true) :
    pyContains (pyReplace s old new) new = true := by
  unfold pyContains at h ⊢
  cases s with
  | mk d =>
    unfold pyReplace pyReplaceL
    cases hd : old.data with
    | nil =>
      simp only
      cases d with
      | nil => exact containsSub_of_isPre _ _ (by simpa using isPre_append_self new.data [])
      | cons c rest => exact containsSub_of_isPre _ _ (isPre_append_self new.data _)
    | cons o os =>
      rw [hd] at h
      simp only
      exact core_contains_new (o :: os) new.data (by simp) d.length d (Nat.le_refl _) h

theorem dictInsert_mem (d : List (String × String)) (k v : String)
    (p : String × String) (h : p ∈ dictInsert d k v) : p = (k, v) ∨ p ∈ d := by
  unfold dictInsert at h
  by_cases ha : d.any (fun q => q.1 == k) = true
  · rw [if_pos ha] at h
    rcases List.mem_map.mp h with ⟨q, hq, hpq⟩
    by_cases hk : q.1 == k
    · left; rw [← hpq]; simp [hk]
    · right
      have : (if q.1 == k then (k, v) else q) = q := by simp [hk]
      rw [this] at hpq; rw [← hpq]; exact hq
  · rw [if_neg ha] at h
    rcases List.mem_append.mp h with h1 | h1
    · right; exact h1
    · left; simpa using h1

theorem repPass_snd_shape (issue : Issue) :
    ∀ (repls : List Replacement) (acc : List (String × String) × List Event),
      (∀ e ∈ acc.2, ∃ kk ff, e = Event.warnNonStr kk ff) →
      ∀ e ∈ (repls.foldl (replacementStep issue) acc).2,
        ∃ kk ff, e = Event.warnNonStr kk ff := by
  intro repls
  induction repls with
  | nil => intro acc hacc e he; exact hacc e he
  | cons r rest ih =>
    intro acc hacc e he
    refine ih (replacementStep issue acc r) ?_ e he
    intro e2 he2
    unfold replacementStep at he2
    rcases hg : getField issue r.field_name with _ | fv
    · rw [hg] at he2
      simp only at he2
      rcases List.mem_append.mp he2 with h1 | h1
      · exact hacc e2 h1
      · exact ⟨issue.key, r.field_name, by simpa using h1⟩
    · rcases fv with s | _
      · rw [hg] at he2
        simp only at he2
        by_cases hne : s ≠ pyReplace s r.old r.new
        · rw [if_pos hne] at he2; exact hacc e2 he2
        · rw [if_neg hne] at he2; exact hacc e2 he2
      · rw [hg] at he2
        simp only at he2
        rcases List.mem_append.mp he2 with h1 | h1
        · exact hacc e2 h1
        · exact ⟨issue.key, r.field_name, by simpa using h1⟩

theorem repPass_fst_staged (issue : Issue) :
    ∀ (repls : List Replacement) (acc : List (String × String) × List Event),
      (∀ p ∈ acc.1, staged issue p) →
      ∀ p ∈ (repls.foldl (replacementStep issue) acc).1, staged issue p := by
  intro repls
  induction repls with
  | nil => intro acc hacc p hp; exact hacc p hp
  | cons r rest ih =>
    intro acc hacc p hp
    refine ih (replacementStep issue acc r) ?_ p hp
    intro p2 hp2
    unfold replacementStep at hp2
    rcases hg : getField issue r.field_name with _ | fv
    · rw [hg] at hp2; exact hacc p2 hp2
    · rcases fv with s | _
      · rw [hg] at hp2
        simp only at hp2
        by_cases hne : s ≠ pyReplace s r.old r.new
        · rw [if_pos hne] at hp2
          rcases dictInsert_mem _ _ _ _ hp2 with h1 | h1
          · exact ⟨s, by rw [h1]; exact hg, by rw [h1]; exact fun hc => hne hc.symm⟩
          · exact hacc p2 h1
        · rw [if_neg hne] at hp2; exact hacc p2 hp2
      · rw [hg] at hp2; exact hacc p2 hp2

theorem countEv_append (p : Event → Bool) (a b : List Event) :
    countEv p (a ++ b) = countEv p a + countEv p b := by
  unfold countEv
  rw [List.filter_append, List.length_append]

theorem countEv_zero_of_shape (p : Event → Bool)
    (hp : ∀ kk ff, p (Event.warnNonStr kk ff) = false) (evs : List Event)
    (hevs : ∀ e ∈ evs, ∃ kk ff, e = Event.warnNonStr kk ff) :
    countEv p evs = 0 := by
  unfold countEv
  rw [List.length_eq_zero]
  rw [List.filter_eq_nil_iff]
  intro e he
  rcases hevs e he with ⟨kk, ff, rfl⟩
  simp [hp]

theorem countEv_cons (p : Event → Bool) (e : Event) (evs : List Event) :
    countEv p (e :: evs) = (if p e then 1 else 0) + countEv p evs := by
  unfold countEv
  rw [List.filter_cons]
  cases hp : p e <;> simp [hp, Nat.add_comm]

theorem countEv_zero_iff (p : Event → Bool) (evs : List Event) :
    countEv p evs = 0 ↔ ∀ e ∈ evs, p e = false := by
  unfold countEv
  rw [List.length_eq_zero, List.filter_eq_nil_iff]
  constructor
  · intro h e he
    have := h e he
    simpa using this
  · intro h e he
    simp [h e he]

theorem countEv_mono (p q : Event → Bool) (h : ∀ e, p e = true → q e = true) :
    ∀ evs, countEv p evs ≤ countEv q evs := by
  intro evs
  induction evs with
  | nil => simp [countEv]
  | cons e rest ih =>
    rw [countEv_cons, countEv_cons]
    have hle : (if p e then 1 else 0) ≤ (if q e then 1 else 0) := by
      cases hp : p e
      · simp
      · simp [h e hp]
    omega

theorem processIssue_facts (additional_tests : List VTest)
    (repls : List Replacement) (dry_run : Bool)
    (update : String → List (String × String) → Bool) (issue : Issue) :
    countEv isUpdateCallEv
        (processIssue additional_tests repls dry_run update issue).events ≤ 1 ∧
    countEv isSummaryEv
        (processIssue additional_tests repls dry_run update issue).events = 0 ∧
    ∀ k chs,
      Event.updateCall k chs ∈
          (processIssue additional_tests repls dry_run update issue).events →
        k = issue.key ∧ chs = (replacementsPass issue repls).1 ∧ chs ≠ [] ∧
        additional_tests = [] := by
  have hwshape : ∀ e ∈ (replacementsPass issue repls).2,
      ∃ kk ff, e = Event.warnNonStr kk ff :=
    repPass_snd_shape issue repls ([], []) (fun e he => absurd he (List.not_mem_nil e))
  have hwuc : countEv isUpdateCallEv (replacementsPass issue repls).2 = 0 :=
    countEv_zero_of_shape _ (fun kk ff => rfl) _ hwshape
  have hwsum : countEv isSummaryEv (replacementsPass issue repls).2 = 0 :=
    countEv_zero_of_shape _ (fun kk ff => rfl) _ hwshape
  have hnomem : ∀ k chs, Event.updateCall k chs ∉ (replacementsPass issue repls).2 := by
    intro k chs hmem
    rcases hwshape _ hmem with ⟨kk, ff, hEq⟩
    exact Event.noConfusion hEq
  cases additional_tests with
  | cons t ts =>
    by_cases h : t.field_name ∈ fieldNames issue <;>
      simp [processIssue, testsLoop, h, countEv, List.filter_cons,
        isUpdateCallEv, isSummaryEv]
  | nil =>
    by_cases hsub : ∀ x ∈ repls, x.field_name ∈ fieldNames issue
    · by_cases hch : (replacementsPass issue repls).1 ≠ []
      · by_cases hd : dry_run = true
        · -- dry-run branch, lines 77-78
          have hev : (processIssue [] repls dry_run update issue).events =
              Event.evaluatingMsg issue.key :: (replacementsPass issue repls).2 ++
                [Event.dryRunMsg issue.key (replacementsPass issue repls).1] := by
            simp only [processIssue, testsLoop]
            rw [if_neg (by simp : ¬(true = false)), if_pos (by simpa using hsub),
              if_pos ⟨hd, hch⟩]
          rw [hev]
          refine ⟨?_, ?_, ?_⟩
          · rw [List.cons_append, countEv_cons, countEv_append, hwuc]
            simp [isUpdateCallEv, countEv, List.filter_cons]
          · rw [List.cons_append, countEv_cons, countEv_append, hwsum]
            simp [isSummaryEv, countEv, List.filter_cons]
          · intro k chs hmem
            rw [List.cons_append] at hmem
            rcases List.mem_cons.mp hmem with h1 | h1
            · exact Event.noConfusion h1
            · rcases List.mem_append.mp h1 with h2 | h2
              · exact absurd h2 (hnomem k chs)
              · exact Event.noConfusion (List.mem_singleton.mp h2)
        · -- non-dry-run with a non-empty change set, lines 79-87
          have hnd : ¬(dry_run = true ∧ (replacementsPass issue repls).1 ≠ []) :=
            fun hcon => hd hcon.1
          cases hupd : update issue.key (replacementsPass issue repls).1
          · have hev : (processIssue [] repls dry_run update issue).events =
                Event.evaluatingMsg issue.key :: (replacementsPass issue repls).2 ++
                  [Event.updateCall issue.key (replacementsPass issue repls).1] := by
              simp only [processIssue, testsLoop]
              rw [if_neg (by simp : ¬(true = false)), if_pos (by simpa using hsub),
                if_neg hnd, if_pos hch, if_neg (by simp [hupd])]
            rw [hev]
            refine ⟨?_, ?_, ?_⟩
            · rw [List.cons_append, countEv_cons, countEv_append, hwuc]
              simp [isUpdateCallEv, countEv, List.filter_cons]
            · rw [List.cons_append, countEv_cons, countEv_append, hwsum]
              simp [isSummaryEv, countEv, List.filter_cons]
            · intro k chs hmem
              rw [List.cons_append] at hmem
              rcases List.mem_cons.mp hmem with h1 | h1
              · exact Event.noConfusion h1
              · rcases List.mem_append.mp h1 with h2 | h2
                · exact absurd h2 (hnomem k chs)
                · obtain ⟨hk, hc⟩ := Event.updateCall.inj (List.mem_singleton.mp h2)
                  exact ⟨hk, hc, by rw [hc]; exact hch, rfl⟩
          · have hev : (processIssue [] repls dry_run update issue).events =
                Event.evaluatingMsg issue.key :: (replacementsPass issue repls).2 ++
                  [Event.updateCall issue.key (replacementsPass issue repls).1,
                   Event.updatedMsg issue.key
                     ((replacementsPass issue repls).1.map (fun p => p.1))] := by
              simp only [processIssue, testsLoop]
              rw [if_neg (by simp : ¬(true = false)), if_pos (by simpa using hsub),
                if_neg hnd, if_pos hch, if_pos (by simp [hupd])]
            rw [hev]
            refine ⟨?_, ?_, ?_⟩
            · rw [List.cons_append, countEv_cons, countEv_append, hwuc]
              simp [isUpdateCallEv, countEv, List.filter_cons]
            · rw [List.cons_append, countEv_cons, countEv_append, hwsum]
              simp [isSummaryEv, countEv, List.filter_cons]
            · intro k chs hmem
              rw [List.cons_append] at hmem
              rcases List.mem_cons.mp hmem with h1 | h1
              · exact Event.noConfusion h1
              · rcases List.mem_append.mp h1 with h2 | h2
                · exact absurd h2 (hnomem k chs)
                · rcases List.mem_cons.mp h2 with h3 | h3
                  · obtain ⟨hk, hc⟩ := Event.updateCall.inj h3
                    exact ⟨hk, hc, by rw [hc]; exact hch, rfl⟩
                  · exact Event.noConfusion (List.mem_singleton.mp h3)
      · -- empty change set, lines 88-89
        have hnd : ¬(dry_run = true ∧ (replacementsPass issue repls).1 ≠ []) :=
          fun hcon => hch hcon.2
        have hev : (processIssue [] repls dry_run update issue).events =
            Event.evaluatingMsg issue.key :: (replacementsPass issue repls).2 := by
          simp only [processIssue, testsLoop]
          rw [if_neg (by simp : ¬(true = false)), if_pos (by simpa using hsub),
            if_neg hnd, if_neg hch]
        rw [hev]
        refine ⟨?_, ?_, ?_⟩
        · rw [countEv_cons, hwuc]
          simp [isUpdateCallEv]
        · rw [countEv_cons, hwsum]
          simp [isSummaryEv]
        · intro k chs hmem
          rcases List.mem_cons.mp hmem with h1 | h1
          · exact Event.noConfusion h1
          · exact absurd h1 (hnomem k chs)
    · -- missing replacement field, lines 56-61
      have hev : (processIssue [] repls dry_run update issue).events =
          [Event.evaluatingMsg issue.key] := by
        simp only [processIssue, testsLoop]
        rw [if_neg (by simp : ¬(true = false)), if_neg (by simpa using hsub)]
      rw [hev]
      refine ⟨?_, ?_, ?_⟩
      · simp [countEv, List.filter_cons, isUpdateCallEv]
      · simp [countEv, List.filter_cons, isSummaryEv]
      · intro k chs hmem
        exact Event.noConfusion (List.mem_singleton.mp hmem)

theorem runFold_events_mem (tests : List VTest) (repls : List Replacement)
    (dry_run : Bool) (update : String → List (String × String) → Bool) :
    ∀ (issues : List Issue) (st : RunResult) (e : Event),
      e ∈ (issues.foldl (runStep tests repls dry_run update) st).events →
      e ∈ st.events ∨
        ∃ issue ∈ issues, e ∈ (processIssue tests repls dry_run update issue).events := by
  intro issues
  induction issues with
  | nil => intro st e he; left; exact he
  | cons i rest ih =>
    intro st e he
    rw [List.foldl_cons] at he
    rcases ih (runStep tests repls dry_run update st i) e he with h1 | h1
    · unfold runStep at h1
      cases herr : st.err with
      | some er => rw [herr] at h1; left; exact h1
      | none =>
        rw [herr] at h1
        simp only at h1
        rcases List.mem_append.mp h1 with h2 | h2
        · left; exact h2
        · right; exact ⟨i, List.mem_cons_self i rest, h2⟩
    · rcases h1 with ⟨issue, hiss, hmem⟩
      right; exact ⟨issue, List.mem_cons_of_mem i hiss, hmem⟩

theorem runFold_summary_count (tests : List VTest) (repls : List Replacement)
    (dry_run : Bool) (update : String → List (String × String) → Bool) :
    ∀ (issues : List Issue) (st : RunResult),
      countEv isSummaryEv (issues.foldl (runStep tests repls dry_run update) st).events =
        countEv isSummaryEv st.events := by
  intro issues
  induction issues with
  | nil => intro st; rfl
  | cons i rest ih =>
    intro st
    rw [List.foldl_cons, ih]
    unfold runStep
    cases herr : st.err with
    | some er => rfl
    | none =>
      simp only
      rw [countEv_append, (processIssue_facts tests repls dry_run update i).2.1]
      omega

theorem isUpdateCallKey_imp (k : String) (e : Event)
    (h : isUpdateCallKey k e = true) : isUpdateCallEv e = true := by
  cases e <;> simp [isUpdateCallKey, isUpdateCallEv] at h ⊢

theorem runFold_ucKey_le (tests : List VTest) (repls : List Replacement)
    (dry_run : Bool) (update : String → List (String × String) → Bool) (k : String) :
    ∀ (issues : List Issue) (st : RunResult),
      ucKeyCount k (issues.foldl (runStep tests repls dry_run update) st).events ≤
        ucKeyCount k st.events + keyCount k issues := by
  intro issues
  induction issues with
  | nil => intro st; simp [keyCount, List.filter_nil]
  | cons i rest ih =>
    intro st
    rw [List.foldl_cons]
    have hstep := ih (runStep tests repls dry_run update st i)
    have hkc : keyCount k (i :: rest) = (if i.key == k then 1 else 0) + keyCount k rest := by
      unfold keyCount
      rw [List.filter_cons]
      cases hk : (i.key == k) <;> simp [Nat.add_comm]
    have hone : ucKeyCount k (runStep tests repls dry_run update st i).events ≤
        ucKeyCount k st.events + (if i.key == k then 1 else 0) := by
      unfold runStep
      cases herr : st.err with
      | some er => simp
      | none =>
        simp only
        unfold ucKeyCount
        rw [countEv_append]
        have hpi : countEv (isUpdateCallKey k)
            (processIssue tests repls dry_run update i).events ≤
            (if i.key == k then 1 else 0) := by
          cases hk : (i.key == k)
          · have hz : countEv (isUpdateCallKey k)
                (processIssue tests repls dry_run update i).events = 0 := by
              rw [countEv_zero_iff]
              intro e he
              cases e with
              | updateCall k2 chs =>
                have hk2 := ((processIssue_facts tests repls dry_run update i).2.2 k2 chs he).1
                simp only [isUpdateCallKey]
                rw [hk2]
                exact hk
              | startMsg n => rfl
              | evaluatingMsg key => rfl
              | warnNonStr key field => rfl
              | dryRunMsg key chs => rfl
              | updatedMsg key fs => rfl
              | summaryMsg a b c d e2 => rfl
            rw [hz]
            simp
          · calc countEv (isUpdateCallKey k)
                  (processIssue tests repls dry_run update i).events ≤
                countEv isUpdateCallEv (processIssue tests repls dry_run update i).events :=
                  countEv_mono _ _ (isUpdateCallKey_imp k) _
              _ ≤ 1 := (processIssue_facts tests repls dry_run update i).1
              _ = (if true = true then 1 else 0) := by simp
        omega
    have hfinal := hkc
    unfold ucKeyCount at hstep hone ⊢
    omega

theorem preCompile_error_of_malformed (compiles : String → Bool) :
    ∀ (tests : List VTest) (t : VTest), t ∈ tests →
      (t.regex = none ∨ ∃ pat, t.regex = some pat ∧ compiles pat = false) →
      preCompile compiles tests = Except.error PyErr.nameErrorSys := by
  intro tests
  induction tests with
  | nil => intro t ht _; exact absurd ht (List.not_mem_nil t)
  | cons u rest ih =>
    intro t ht hbad
    rcases List.mem_cons.mp ht with rfl | hmem
    · unfold preCompile
      rcases hbad with hnone | ⟨pat, hpat, hcomp⟩
      · rw [hnone]
      · rw [hpat]
        simp [hcomp]
    · unfold preCompile
      cases hr : u.regex with
      | none => rfl
      | some pat =>
        by_cases hc : compiles pat = true
        · simp only [hc, if_true]
          exact ih t hmem hbad
        · simp only [Bool.not_eq_true] at hc
          simp [hc]

theorem keyCount_le_one_of_nodup (k : String) (issues : List Issue)
    (h : (issues.map Issue.key).Nodup) : keyCount k issues ≤ 1 := by
  induction issues with
  | nil => simp [keyCount, List.filter_nil]
  | cons i rest ih =>
    rw [List.map_cons, List.nodup_cons] at h
    unfold keyCount at ih ⊢
    rw [List.filter_cons]
    cases hk : (i.key == k)
    · simpa using ih h.2
    · have hkk : i.key = k := by simpa using hk
      have hzero : (rest.filter (fun j => j.key == k)).length = 0 := by
        rw [List.length_eq_zero, List.filter_eq_nil_iff]
        intro j hj hjk
        have hjkk : j.key = k := by simpa using hjk
        exact h.1 ((hjkk.trans hkk.symm) ▸ List.mem_map_of_mem Issue.key hj)
      simp [hzero]

/-- Claim C1: for every input whose validation-rule list contains a
malformed rule (a rule missing its pattern key, or a rule whose pattern
fails to compile), the run terminates before processing any issue: the
ticket store search is never invoked, no issue is evaluated and no update
call is made. -/
theorem c1_malformed_test_aborts (issue_jql : String)
    (replacements : List Replacement) (additional_tests : List VTest)
    (dry_run : Bool) (compiles : String → Bool) (search : String → List Issue)
    (update : String → List (String × String) → Bool)
    (t : VTest) (ht : t ∈ additional_tests)
    (hbad : t.regex = none ∨ ∃ pat, t.regex = some pat ∧ compiles pat = false) :
    (find_and_replace issue_jql replacements additional_tests dry_run compiles
        search update).searchInvoked = false ∧
    countEv isEvaluatingEv (find_and_replace issue_jql replacements
        additional_tests dry_run compiles search update).events = 0 ∧
    countEv isUpdateCallEv (find_and_replace issue_jql replacements
        additional_tests dry_run compiles search update).events = 0 := by
  have hpre := preCompile_error_of_malformed compiles additional_tests t ht hbad
  unfold find_and_replace
  rw [hpre]
  exact ⟨rfl, rfl, rfl⟩

/-- Witness for C1: a concrete run whose single validation rule has no
regex key never invokes the search and processes zero issues. -/
theorem c1_witness :
    (find_and_replace "project = X" [] [{ field_name := "status", regex := none }]
        false (fun _ => true) (fun _ => []) (fun _ _ => true)).searchInvoked = false ∧
    countEv isEvaluatingEv (find_and_replace "project = X" []
        [{ field_name := "status", regex := none }] false (fun _ => true)
        (fun _ => []) (fun _ _ => true)).events = 0 ∧
    countEv isUpdateCallEv (find_and_replace "project = X" []
        [{ field_name := "status", regex := none }] false (fun _ => true)
        (fun _ => []) (fun _ _ => true)).events = 0 :=
  c1_malformed_test_aborts "project = X" [] [{ field_name := "status", regex := none }]
    false (fun _ => true) (fun _ => []) (fun _ _ => true)
    { field_name := "status", regex := none } (List.mem_singleton.mpr rfl) (Or.inl rfl)

/-- Claim C2 (code bug): at the spec's concrete scenario — validation rule
`status` with pattern `Open`, issue whose `status` field holds `"Closed"` —
the claim expects failed-tests = 1 and the issue skipped.  The code instead
raises `AttributeError` at line 46 (`getattr` is applied to the `dir()`
list, not to `issue.fields`), so the run crashes: the failed-tests counter
stays 0, the matcher is never run against the field value, and no summary
is printed. -/
theorem c2_rule_evaluation_crashes :
    c2Run.err = some (PyErr.attributeError "status") ∧
    c2Run.counters.issues_failed_tests = 0 ∧
    countEv isUpdateCallEv c2Run.events = 0 ∧
    countEv isSummaryEv c2Run.events = 0 := by decide

/-- Claim C3 (code bug): for an issue that lacks the field referenced by a
validation rule, the claim expects a warning, failed-tests += 1 and a skip.
The code instead reaches line 43, whose `sys.stderr.write` raises
`NameError` (`sys` is never imported), so the run crashes: no warning is
written, the failed-tests counter stays 0 and no summary is printed. -/
theorem c3_missing_field_crashes :
    c3Run.err = some PyErr.nameErrorSys ∧
    c3Run.counters.issues_failed_tests = 0 ∧
    countEv isUpdateCallEv c3Run.events = 0 ∧
    countEv isSummaryEv c3Run.events = 0 := by decide

/-- Claim C4 (code bug): when the store's update call fails, the claim
expects a logged warning, failed += 1 and processing to continue with the
next issue.  The code catches the update error at line 85 but line 86 calls
`sys.stderr.write`, raising `NameError` inside the handler: the run crashes
with failed still 0, the second of the two fetched issues is never
evaluated, and no summary is printed. -/
theorem c4_update_failure_crashes :
    c4Run.err = some PyErr.nameErrorSys ∧
    c4Run.counters.failed_issues = 0 ∧
    c4Run.counters.selected_issues = 2 ∧
    countEv isEvaluatingEv c4Run.events = 1 ∧
    countEv isSummaryEv c4Run.events = 0 := by decide

/-- Claim C10 (code bug): in a non-dry-run with two fetched issues whose
update call fails, the claim expects each fetched issue to increment
exactly one of the four outcome counters so that their sum equals the
selected count (2).  Instead the `NameError` raised at line 86 aborts the
run and the four outcome counters sum to 0 ≠ 2. -/
theorem c10_counter_sum_breaks :
    c10Run.counters.selected_issues = 2 ∧
    c10Run.counters.issues_failed_tests + c10Run.counters.changed_issues +
      c10Run.counters.unchanged_issues + c10Run.counters.failed_issues = 0 ∧
    c10Run.err = some PyErr.nameErrorSys := by decide

/-- Claim C5: in every run over fetched issues with pairwise distinct keys,
each fetched issue is mutated (updated via the store) at most once, and an
update call is submitted only for a fetched issue whose submitted change
set is non-empty with every staged value actually differing from the
issue's current field value, and on which every validation rule passed
(only rule-free runs ever reach an update, so this holds vacuously). -/
theorem c5_update_gated (issue_jql : String) (replacements : List Replacement)
    (additional_tests : List VTest) (dry_run : Bool) (compiles : String → Bool)
    (search : String → List Issue) (update : String → List (String × String) → Bool)
    (rsearch : String → String → Bool)
    (hkeys : ((search issue_jql).map Issue.key).Nodup)
    (k : String) (chs : List (String × String))
    (hmem : Event.updateCall k chs ∈ (find_and_replace issue_jql replacements
      additional_tests dry_run compiles search update).events) :
    ucKeyCount k (find_and_replace issue_jql replacements additional_tests
      dry_run compiles search update).events ≤ 1 ∧
    chs ≠ [] ∧
    ∃ issue ∈ search issue_jql, issue.key = k ∧ (∀ p ∈ chs, staged issue p) ∧
      ∀ t ∈ additional_tests, specRulePasses rsearch t issue = true := by
  unfold find_and_replace at hmem ⊢
  revert hmem
  cases hpc : preCompile compiles additional_tests with
  | error e =>
    intro hmem
    simp at hmem
  | ok u =>
    intro hmem
    simp only at hmem ⊢
    have hfold := runFold_ucKey_le additional_tests replacements dry_run update k
      (search issue_jql)
      { searchInvoked := true,
        events := [Event.startMsg (search issue_jql).length],
        counters := initCounters (search issue_jql).length, err := none, ret := none }
    have hinit : ucKeyCount k [Event.startMsg (search issue_jql).length] = 0 := by
      simp [ucKeyCount, countEv, List.filter_cons, isUpdateCallKey]
    simp only at hfold
    rw [hinit] at hfold
    have hkle := keyCount_le_one_of_nodup k (search issue_jql) hkeys
    have hfrom : ∀ e : Event,
        e ∈ ((search issue_jql).foldl (runStep additional_tests replacements
          dry_run update)
          { searchInvoked := true,
            events := [Event.startMsg (search issue_jql).length],
            counters := initCounters (search issue_jql).length, err := none,
            ret := none }).events →
        e = Event.startMsg (search issue_jql).length ∨
          ∃ issue ∈ search issue_jql,
            e ∈ (processIssue additional_tests replacements dry_run update
              issue).events := by
      intro e he
      rcases runFold_events_mem additional_tests replacements dry_run update
        (search issue_jql) _ e he with h1 | h1
      · left; exact List.mem_singleton.mp h1
      · right; exact h1
    have hconc : ∀ (hm2 : Event.updateCall k chs ∈
        ((search issue_jql).foldl (runStep additional_tests replacements dry_run
          update)
          { searchInvoked := true,
            events := [Event.startMsg (search issue_jql).length],
            counters := initCounters (search issue_jql).length, err := none,
            ret := none }).events),
        chs ≠ [] ∧ ∃ issue ∈ search issue_jql, issue.key = k ∧
          (∀ p ∈ chs, staged issue p) ∧
          ∀ t ∈ additional_tests, specRulePasses rsearch t issue = true := by
      intro hm2
      rcases hfrom _ hm2 with h1 | ⟨issue, hiss, hpe⟩
      · exact Event.noConfusion h1
      · obtain ⟨hk, hc, hne, hat⟩ :=
          (processIssue_facts additional_tests replacements dry_run update
            issue).2.2 k chs hpe
        refine ⟨hne, issue, hiss, hk.symm, ?_, ?_⟩
        · intro p hp
          rw [hc] at hp
          exact repPass_fst_staged issue replacements ([], [])
            (fun q hq => absurd hq (List.not_mem_nil q)) p hp
        · intro t ht
          rw [hat] at ht
          exact absurd ht (List.not_mem_nil t)
    revert hmem
    cases herr : ((search issue_jql).foldl (runStep additional_tests replacements
        dry_run update)
        { searchInvoked := true,
          events := [Event.startMsg (search issue_jql).length],
          counters := initCounters (search issue_jql).length, err := none,
          ret := none }).err with
    | none =>
      intro hmem
      simp only at hmem ⊢
      rcases List.mem_append.mp hmem with hm2 | hm2
      · refine ⟨?_, hconc hm2⟩
        rw [ucKeyCount, countEv_append]
        have hlast : ∀ a b c d e2 : Nat,
            countEv (isUpdateCallKey k) [Event.summaryMsg a b c d e2] = 0 := by
          intro a b c d e2
          simp [countEv, List.filter_cons, isUpdateCallKey]
        rw [hlast]
        unfold ucKeyCount at hfold
        omega
      · exact absurd (List.mem_singleton.mp hm2) (fun hEq => Event.noConfusion hEq)
    | some e =>
      intro hmem
      simp only at hmem ⊢
      refine ⟨?_, hconc hmem⟩
      unfold ucKeyCount at hfold ⊢
      omega

/-- Witness for C5: a concrete rule-free run with one changing replacement
and an accepting store performs its single update call gated as claimed. -/
theorem c5_witness :
    ucKeyCount "W-1" c5Run.events ≤ 1 ∧
    ([("summary", "bbb")] : List (String × String)) ≠ [] ∧
    ∃ issue ∈ (fun _ : String => [c5Issue]) "project = X", issue.key = "W-1" ∧
      (∀ p ∈ ([("summary", "bbb")] : List (String × String)), staged issue p) ∧
      ∀ t ∈ ([] : List VTest),
        specRulePasses (fun _ _ => true) t issue = true :=
  c5_update_gated "project = X" [{ field_name := "summary", old := "a", new := "b" }]
    [] false (fun _ => true) (fun _ => [c5Issue]) (fun _ _ => true)
    (fun _ _ => true) (by decide) "W-1" [("summary", "bbb")] (by decide)

/-- Counterexample for C6 as stated: with `dry_run = true`, an issue on
which a replacement changes a field value, and one validation rule present,
the staged change set is never logged — processing raises `AttributeError`
in the validation loop before the replacement phase, so no dry-run line is
printed. -/
theorem c6_counterexample :
    (replacementsPass c6Issue
      [{ field_name := "summary", old := "a", new := "b" }]).1 ≠ [] ∧
    countEv isDryRunEv c6Run.events = 0 ∧
    c6Run.err = some (PyErr.attributeError "status") := by decide

/-- Claim C6 (amended): for every issue whose processing reaches the
replacement phase (a run with no validation rules, every replacement field
present on the issue), if at least one replacement changes a field value
and dry_run is true, then no update call is made to the store, the staged
change set is logged, and the issue is not tallied as changed. -/
theorem c6_dry_run_logs (replacements : List Replacement)
    (update : String → List (String × String) → Bool) (issue : Issue)
    (hfields : ∀ r ∈ replacements, r.field_name ∈ fieldNames issue)
    (hchanges : (replacementsPass issue replacements).1 ≠ []) :
    countEv isUpdateCallEv
      (processIssue [] replacements true update issue).events = 0 ∧
    Event.dryRunMsg issue.key (replacementsPass issue replacements).1 ∈
      (processIssue [] replacements true update issue).events ∧
    (processIssue [] replacements true update issue).changedDelta = 0 := by
  have hrec : processIssue [] replacements true update issue =
      { events := Event.evaluatingMsg issue.key ::
          (replacementsPass issue replacements).2 ++
          [Event.dryRunMsg issue.key (replacementsPass issue replacements).1],
        failedTestsDelta := 0, changedDelta := 0, unchangedDelta := 0,
        failedDelta := 0, err := none } := by
    simp only [processIssue, testsLoop]
    rw [if_neg (by simp : ¬(true = false)), if_pos (by simpa using hfields),
      if_pos ⟨by trivial, hchanges⟩]
  have hwshape : ∀ e ∈ (replacementsPass issue replacements).2,
      ∃ kk ff, e = Event.warnNonStr kk ff :=
    repPass_snd_shape issue replacements ([], [])
      (fun e he => absurd he (List.not_mem_nil e))
  have hwuc : countEv isUpdateCallEv (replacementsPass issue replacements).2 = 0 :=
    countEv_zero_of_shape _ (fun kk ff => rfl) _ hwshape
  rw [hrec]
  refine ⟨?_, ?_, rfl⟩
  · rw [List.cons_append, countEv_cons, countEv_append, hwuc]
    simp [isUpdateCallEv, countEv, List.filter_cons]
  · rw [List.cons_append]
    exact List.mem_cons_of_mem _
      (List.mem_append.mpr (Or.inr (List.mem_singleton.mpr rfl)))

/-- Witness for C6 (amended) at a concrete input: one changing replacement,
no validation rules, dry run. -/
theorem c6_witness :
    countEv isUpdateCallEv
      (processIssue [] [{ field_name := "summary", old := "a", new := "b" }]
        true (fun _ _ => true)
        { key := "D-2", fields := [("summary", FieldValue.str "aaa")] }).events = 0 ∧
    Event.dryRunMsg "D-2"
      (replacementsPass { key := "D-2", fields := [("summary", FieldValue.str "aaa")] }
        [{ field_name := "summary", old := "a", new := "b" }]).1 ∈
      (processIssue [] [{ field_name := "summary", old := "a", new := "b" }]
        true (fun _ _ => true)
        { key := "D-2", fields := [("summary", FieldValue.str "aaa")] }).events ∧
    (processIssue [] [{ field_name := "summary", old := "a", new := "b" }]
      true (fun _ _ => true)
      { key := "D-2", fields := [("summary", FieldValue.str "aaa")] }).changedDelta = 0 :=
  c6_dry_run_logs [{ field_name := "summary", old := "a", new := "b" }]
    (fun _ _ => true) { key := "D-2", fields := [("summary", FieldValue.str "aaa")] }
    (by decide) (by decide)

/-- Claim C7: replacement is literal.  If a rule's `old` string does not
occur verbatim in the field value, the replacement leaves the value
unchanged — so regex metacharacters such as `.` and `*` in `old` carry no
pattern meaning — and whenever `old` does occur, `new` is inserted verbatim
into the result. -/
theorem c7_literal_replacement (v old new : String) :
    (pyContains v old = false → pyReplace v old new = v) ∧
    (pyContains v old = true → pyContains (pyReplace v old new) new = true) :=
  ⟨fun h => pyReplace_id_of_not_contains v old new h,
   fun h => pyReplace_contains_new v old new h⟩

/-- Witness for C7 with regex metacharacters: a literal `.` matches no
character of `"abc"` (a regex `.` would match all of them), and the
replacement string `*!` is inserted verbatim. -/
theorem c7_witness :
    pyReplace "abc" "." "x" = "abc" ∧
    pyContains (pyReplace "a.c" "." "*!") "*!" = true :=
  ⟨(c7_literal_replacement "abc" "." "x").1 (by decide),
   (c7_literal_replacement "a.c" "." "*!").2 (by decide)⟩

/-- Counterexample for C8 as stated: for the one-rule set `old = "a"`,
`new = "aa"` and field value `"a"`, one application yields `"aa"` but a
second application yields `"aaaa"` — the second application is not a
no-op. -/
theorem c8_counterexample :
    applyRuleSet [{ field_name := "summary", old := "a", new := "aa" }] "a" = "aa" ∧
    applyRuleSet [{ field_name := "summary", old := "a", new := "aa" }]
      (applyRuleSet [{ field_name := "summary", old := "a", new := "aa" }] "a") =
      "aaaa" ∧
    ("aaaa" : String) ≠ "aa" := by decide

theorem foldl_const_of_fixed (f : String → Replacement → String) (w : String) :
    ∀ rs : List Replacement, (∀ b ∈ rs, f w b = w) → rs.foldl f w = w := by
  intro rs
  induction rs with
  | nil => intro _; rfl
  | cons r rest ih =>
    intro h
    rw [List.foldl_cons, h r (List.mem_cons_self r rest)]
    exact ih (fun b hb => h b (List.mem_cons_of_mem r hb))

/-- Claim C8 (amended): applying the same replacement rule set twice to a
field value yields the same result as applying it once, provided no rule's
`old` string still occurs in the once-applied value (in Python's sense, in
which the empty string occurs in every value).  Without that proviso the
counterexample above applies. -/
theorem c8_idempotent_no_reoccurrence (replacements : List Replacement)
    (v : String)
    (h : ∀ r ∈ replacements,
      pyContains (applyRuleSet replacements v) r.old = false) :
    applyRuleSet replacements (applyRuleSet replacements v) =
      applyRuleSet replacements v := by
  have hfix : ∀ r ∈ replacements,
      pyReplace (applyRuleSet replacements v) r.old r.new =
        applyRuleSet replacements v :=
    fun r hr => pyReplace_id_of_not_contains _ _ _ (h r hr)
  generalize hgen : applyRuleSet replacements v = w at hfix ⊢
  unfold applyRuleSet
  apply foldl_const_of_fixed
  intro r hr
  simp [hfix r hr]

/-- Witness for C8 (amended): `"aa"` with the rule `a → b` becomes `"bb"`,
in which `"a"` no longer occurs, so a second application is a no-op. -/
theorem c8_witness :
    applyRuleSet [{ field_name := "summary", old := "a", new := "b" }]
      (applyRuleSet [{ field_name := "summary", old := "a", new := "b" }] "aa") =
    applyRuleSet [{ field_name := "summary", old := "a", new := "b" }] "aa" :=
  c8_idempotent_no_reoccurrence
    [{ field_name := "summary", old := "a", new := "b" }] "aa" (by decide)

/-- Counterexample for C9 as stated: a run that completes normally, with
tallies (1 selected, 0 failed-tests, 1 changed, 0 unchanged, 0 failed),
returns `none` to its caller — utils.py has no return statement — rather
than a RunSummary of those counts. -/
theorem c9_counterexample :
    c9Run.err = none ∧
    c9Run.counters.selected_issues = 1 ∧ c9Run.counters.issues_failed_tests = 0 ∧
    c9Run.counters.changed_issues = 1 ∧ c9Run.counters.unchanged_issues = 0 ∧
    c9Run.counters.failed_issues = 0 ∧
    c9Run.ret = none := by decide

/-- Claim C9 (amended): whenever a run completes without an exception,
exactly one summary line is emitted, carrying the final values of all five
tallies, and the function returns `None` (no RunSummary is returned to the
caller). -/
theorem c9_single_summary (issue_jql : String) (replacements : List Replacement)
    (additional_tests : List VTest) (dry_run : Bool) (compiles : String → Bool)
    (search : String → List Issue)
    (update : String → List (String × String) → Bool)
    (hok : (find_and_replace issue_jql replacements additional_tests dry_run
      compiles search update).err = none) :
    countEv isSummaryEv (find_and_replace issue_jql replacements additional_tests
      dry_run compiles search update).events = 1 ∧
    Event.summaryMsg
        (find_and_replace issue_jql replacements additional_tests dry_run compiles
          search update).counters.selected_issues
        (find_and_replace issue_jql replacements additional_tests dry_run compiles
          search update).counters.issues_failed_tests
        (find_and_replace issue_jql replacements additional_tests dry_run compiles
          search update).counters.changed_issues
        (find_and_replace issue_jql replacements additional_tests dry_run compiles
          search update).counters.unchanged_issues
        (find_and_replace issue_jql replacements additional_tests dry_run compiles
          search update).counters.failed_issues ∈
      (find_and_replace issue_jql replacements additional_tests dry_run compiles
        search update).events ∧
    (find_and_replace issue_jql replacements additional_tests dry_run compiles
      search update).ret = none := by
  unfold find_and_replace at hok ⊢
  revert hok
  cases hpc : preCompile compiles additional_tests with
  | error e =>
    intro hok
    simp at hok
  | ok u =>
    simp only
    intro hok
    revert hok
    cases herr : ((search issue_jql).foldl (runStep additional_tests replacements
        dry_run update)
        { searchInvoked := true,
          events := [Event.startMsg (search issue_jql).length],
          counters := initCounters (search issue_jql).length, err := none,
          ret := none }).err with
    | none =>
      intro hok
      simp only
      have hsc := runFold_summary_count additional_tests replacements dry_run update
        (search issue_jql)
        { searchInvoked := true,
          events := [Event.startMsg (search issue_jql).length],
          counters := initCounters (search issue_jql).length, err := none,
          ret := none }
      simp only at hsc
      have hz : countEv isSummaryEv [Event.startMsg (search issue_jql).length] = 0 := by
        simp [countEv, List.filter_cons, isSummaryEv]
      rw [hz] at hsc
      refine ⟨?_, ?_, by trivial⟩
      · rw [countEv_append, hsc]
        simp [countEv, List.filter_cons, isSummaryEv]
      · exact List.mem_append.mpr (Or.inr (List.mem_singleton.mpr rfl))
    | some e =>
      intro hok
      simp only at hok
      rw [herr] at hok
      exact Option.noConfusion hok

/-- Witness for C9 (amended): the concrete completed run emits exactly one
summary carrying its tallies and returns `None`. -/
theorem c9_witness :
    countEv isSummaryEv c9Run.events = 1 ∧
    Event.summaryMsg c9Run.counters.selected_issues
      c9Run.counters.issues_failed_tests c9Run.counters.changed_issues
      c9Run.counters.unchanged_issues c9Run.counters.failed_issues ∈
      c9Run.events ∧
    c9Run.ret = none :=
  c9_single_summary "project = X" [{ field_name := "summary", old := "a", new := "b" }]
    [] false (fun _ => true)
    (fun _ => [{ key := "S-1", fields := [("summary", FieldValue.str "aaa")] }])
    (fun _ _ => true) (by decide)

end JiraUtils
